import Mathlib

/-!
Verification of the tool-serving daemon in `MCP.py`: the path confinement
resolver `_safe_path`, the tool handlers `echo`, `read_file`, `query_db`,
`summarize`, and the dataset initializer `_ensure_db`, shallowly embedded
in Lean.  Python strings are modelled as `List Char` (Python strings are
sequences of code points, and `len`/slicing count code points).  Filesystem
resolution and the sqlite engine are external dependencies of the program
and are modelled as explicit parameters.
-/

namespace MCP

/-- A Python string: a sequence of code points. -/
abbrev PyStr := List Char

/-- Code points of a Lean string literal, for readable constants. -/
def chars (s : String) : PyStr := s.data

/-- Python `str.split(sep)` for a one-character separator:
`"".split('.') == ['']`, `"a.".split('.') == ['a','']`. -/
def splitOnChar (sep : Char) : PyStr → List PyStr
  | [] => [[]]
  | c :: cs =>
    match splitOnChar sep cs with
    | [] => [[]]
    | p :: ps => if c = sep then [] :: p :: ps else (c :: p) :: ps

/-- Python `str.strip()`: remove leading and trailing whitespace. -/
def pyStrip (s : PyStr) : PyStr :=
  ((s.dropWhile Char.isWhitespace).reverse.dropWhile Char.isWhitespace).reverse

/-- Python `str.lower()`. -/
def pyLower (s : PyStr) : PyStr := s.map Char.toLower

/-- Python `needle in hay` on strings: substring occurrence. -/
def containsSub (needle : PyStr) : PyStr → Bool
  | [] => needle.isPrefixOf []
  | c :: cs => needle.isPrefixOf (c :: cs) || containsSub needle cs

/-- Python `str.rstrip(';')`: remove every trailing semicolon. -/
def rstripSemis (s : PyStr) : PyStr :=
  (s.reverse.dropWhile (fun c => c == ';')).reverse

/-- Python slice `s[:k]` for an `int` stop `k`: a negative stop counts from
the end (floored at 0), a nonnegative stop keeps the first `k` code points. -/
def pySliceTo (s : PyStr) (k : Int) : PyStr :=
  if k < 0 then s.take ((s.length : Int) + k).toNat else s.take k.toNat

/-- Decimal digits of `n`, most significant first (fuel-based so that it
reduces in the kernel). -/
def natToCharsAux : Nat → Nat → PyStr → PyStr
  | 0, _, acc => acc
  | fuel + 1, n, acc =>
    if n = 0 then acc else natToCharsAux fuel (n / 10) (Nat.digitChar (n % 10) :: acc)

/-- Python `str(n)` for a nonnegative integer. -/
def natToChars (n : Nat) : PyStr :=
  if n = 0 then ['0'] else natToCharsAux (n + 1) n []

/-- Python `str(i)` for an `int`, as interpolated by the f-string. -/
def intToChars (i : Int) : PyStr :=
  if i < 0 then '-' :: natToChars (-i).toNat else natToChars i.toNat

/-- A `pathlib.Path`: an absoluteness flag plus the list of path components
(`pathlib` normalises away empty components and `"."` but keeps `".."`). -/
structure PyPath where
  absolute : Bool
  comps : List PyStr
deriving DecidableEq, Repr

/-- Parsing `pathlib.Path(s)`: absolute iff the string starts with `/`; the
components are the slash-separated pieces, with empty pieces and `"."`
dropped. -/
def parsePath (s : PyStr) : PyPath :=
  ⟨s.head? = some '/', (splitOnChar '/' s).filter (fun c => c != [] && c != ['.'])⟩

/-- Python `Path.expanduser()`: a leading `~` component of a relative path is
replaced by the home directory. -/
def expanduser (home : PyPath) (p : PyPath) : PyPath :=
  if p.absolute = false ∧ p.comps.head? = some ['~'] then
    ⟨home.absolute, home.comps ++ p.comps.tail⟩
  else p

/-- Anchoring `ROOT_DIR / p` when `p` is relative, `p` itself when absolute
(line 28 of `MCP.py`: `p if p.is_absolute() else (ROOT_DIR / p)`). -/
def anchorUnder (root p : PyPath) : PyPath :=
  if p.absolute then p else ⟨root.absolute, root.comps ++ p.comps⟩

/-- Python `p.parents`: every proper ancestor of `p`, nearest first, mirroring
`pathlib`'s `parents` sequence (proper prefixes of the component list). -/
def pyParents (p : PyPath) : List PyPath :=
  (p.comps.inits.dropLast).reverse.map (fun cs => ⟨p.absolute, cs⟩)

/-- Function `_safe_path` from `MCP.py` lines 24–33.  `resolve` stands for the
OS-dependent `Path.resolve()` (symlink and `..` resolution); it returns
`none` when resolution raises, matching the `except` clause that maps any
exception to `None`. -/
def _safe_path (resolve : PyPath → Option PyPath) (root home : PyPath)
    (path : PyStr) : Option PyPath :=
  let p := expanduser home (parsePath path)
  match resolve (anchorUnder root p) with
  | none => none
  | some q => if root ∈ pyParents q ∨ q = root then some q else none

/-- Function `echo` from `MCP.py` lines 41–48. -/
def echo (text : PyStr) (rep : Int) : PyStr :=
  let r1 := if rep < 1 then 1 else rep
  let r2 := if r1 > 10 then 10 else r1
  let out := List.intercalate (chars " ") (List.replicate r2.toNat text)
  if out.length ≤ 2000 then out else out.take 2000

/-- The filesystem as seen by `read_file`, an external dependency:
`readText` models `p.read_text(encoding='utf-8', errors='replace')`, whose
result is the decoded text with undecodable bytes already replaced, and
whose failure carries the exception message rendered by `str(e)`. -/
structure FileSystem where
  pathExists : PyPath → Bool
  isFile : PyPath → Bool
  readText : PyPath → Except PyStr PyStr

/-- Function `read_file` from `MCP.py` lines 62–71. -/
def read_file (resolve : PyPath → Option PyPath) (fs : FileSystem)
    (root home : PyPath) (path : PyStr) (max_bytes : Int) : PyStr :=
  match _safe_path resolve root home path with
  | none => []
  | some p =>
    if fs.pathExists p = false ∨ fs.isFile p = false then []
    else
      match fs.readText p with
      | .ok text => pySliceTo text max_bytes
      | .error e => chars "ERROR: " ++ e

/-- A sqlite scalar value. -/
inductive SqlValue where
  | int (i : Int)
  | text (s : PyStr)
  | null
deriving DecidableEq, Repr

/-- An `aiosqlite.Row`: column names paired with values, in column order. -/
abbrev Row := List (PyStr × SqlValue)

/-- Model `QueryResult` from `MCP.py` lines 73–75. -/
structure QueryResult where
  columns : List PyStr
  rows : List (List SqlValue)
deriving DecidableEq, Repr

/-- Row access `r[c]`: value of column `c` in row `r` (every row of one result set
carries the same keys, so the `null` default is never reached there). -/
def rowGet (r : Row) (c : PyStr) : SqlValue :=
  (r.lookup c).getD SqlValue.null

/-- The limit correction of `query_db` (`MCP.py` lines 83–84):
`if limit <= 0 or limit > 1000: limit = 100`. -/
def clampLimit (limit : Int) : Int :=
  if limit ≤ 0 ∨ limit > 1000 then 100 else limit

/-- The statement rewrite of `query_db` (`MCP.py` lines 88–89): append a
`LIMIT` clause unless the lowered text already contains `"limit"`. -/
def rewriteSql (sql : PyStr) (limit : Int) : PyStr :=
  if containsSub (chars "limit") (pyLower sql) then sql
  else rstripSemis sql ++ chars " LIMIT " ++ intToChars limit

/-- Whether an `Except` result is a success. -/
def exOk : Except ε α → Bool
  | .ok _ => true
  | .error _ => false

/-- Function `query_db` from `MCP.py` lines 78–94.  `engine` stands for the external
sqlite engine executing the final statement text and fetching all rows. -/
def query_db (engine : PyStr → List Row) (sql : PyStr) (limit : Int) :
    Except PyStr QueryResult :=
  let sql1 := pyStrip sql
  if (chars "select").isPrefixOf (pyLower sql1) = false then
    .error (chars "Only SELECT queries are allowed.")
  else
    let lim := clampLimit limit
    let sql2 := rewriteSql sql1 lim
    let rows := engine sql2
    let cols := match rows with
      | [] => ([] : List PyStr)
      | r :: _ => r.map Prod.fst
    .ok ⟨cols, rows.map (fun r => cols.map (fun c => rowGet r c))⟩

/-- The four seed inserts of `_ensure_db` (`MCP.py` lines 111–113). -/
def seedInserts : List (PyStr × Int) :=
  [(chars "alice", 5), (chars "bob", 3), (chars "carol", 12), (chars "dave", 0)]

/-- The seeded `users` table.  The id column is filled by the external
sqlite engine: `INTEGER PRIMARY KEY` assigns 1, 2, … in insertion order. -/
def seedUsers : List Row :=
  seedInserts.enum.map (fun p =>
    [(chars "id", SqlValue.int (p.1 + 1)),
     (chars "name", SqlValue.text p.2.1),
     (chars "messages", SqlValue.int p.2.2)])

/-- Function `_ensure_db` from `MCP.py` lines 106–114, on the backing store state:
`none` means the store file is absent; when it is present the function
returns without touching it. -/
def _ensure_db : Option (List Row) → Option (List Row)
  | none => some seedUsers
  | some t => some t

/-- The table held by a present backing store. -/
def dbTable (s : Option (List Row)) : List Row := s.getD []

/-- The external sqlite engine, restricted to the one statement the claims
exercise: `SELECT * FROM users LIMIT 100` returns the rows of `users` in
insertion order (capped by the limit), each row carrying the declared
columns in order; other statements are not modelled. -/
def usersEngine (table : List Row) : PyStr → List Row := fun sql =>
  if sql = chars "SELECT * FROM users LIMIT 100" then table.take 100 else []

/-- The sentence segments of `summarize` (`MCP.py` line 99): split on `'.'`,
strip each piece, drop the empty ones. -/
def segments (text : PyStr) : List PyStr :=
  ((splitOnChar '.' text).map pyStrip).filter (fun seg => seg != [])

/-- Function `summarize` from `MCP.py` lines 97–104. -/
def summarize (text : PyStr) (max_sentences : Int) : PyStr :=
  let s := segments text
  if s = [] then []
  else
    let m := if max_sentences < 1 then 1 else max_sentences
    List.intercalate (chars ". ") (s.take m.toNat) ++
      (if (s.take m.toNat).length > 0 then ['.'] else [])

/-- C3: `query_db` signals a caller-visible error exactly when the
statement, after stripping surrounding whitespace, does not begin with the
case-insensitive token `select`; the outcome does not depend on the `limit`
argument, which is only ever silently corrected. -/
theorem query_db_rejects_iff_not_select (engine : PyStr → List Row)
    (sql : PyStr) (limit : Int) :
    exOk (query_db engine sql limit) =
      (chars "select").isPrefixOf (pyLower (pyStrip sql)) := by
  cases h : (chars "select").isPrefixOf (pyLower (pyStrip sql)) <;>
    simp [query_db, exOk, h]

theorem query_db_rejects_iff_not_select_witness :
    exOk (query_db (usersEngine []) (chars "DELETE FROM users") 100) =
      (chars "select").isPrefixOf (pyLower (pyStrip (chars "DELETE FROM users"))) :=
  query_db_rejects_iff_not_select (usersEngine []) (chars "DELETE FROM users") 100

/-- C4: the `limit` argument of `query_db` is always brought into the range
`[1, 1000]` before use (an out-of-range value becomes the default 100, an
in-range value is kept), and `query_db` behaves as if it had been called
with the corrected value. -/
theorem query_db_limit_clamped (engine : PyStr → List Row)
    (sql : PyStr) (limit : Int) :
    query_db engine sql limit = query_db engine sql (clampLimit limit) ∧
    1 ≤ clampLimit limit ∧ clampLimit limit ≤ 1000 ∧
    ((limit ≤ 0 ∨ 1000 < limit) → clampLimit limit = 100) ∧
    (1 ≤ limit → limit ≤ 1000 → clampLimit limit = limit) := by
  have hcc : clampLimit (clampLimit limit) = clampLimit limit := by
    unfold clampLimit
    split <;> simp
  refine ⟨by simp only [query_db, hcc], ?_, ?_, ?_, ?_⟩
  · unfold clampLimit; split <;> omega
  · unfold clampLimit; split <;> omega
  · intro h; unfold clampLimit; split <;> omega
  · intro h1 h2; unfold clampLimit; split <;> omega

theorem query_db_limit_clamped_witness :
    clampLimit 2000 = 100 ∧ clampLimit 0 = 100 ∧ clampLimit 500 = 500 :=
  ⟨(query_db_limit_clamped (usersEngine []) [] 2000).2.2.2.1 (Or.inr (by decide)),
   (query_db_limit_clamped (usersEngine []) [] 0).2.2.2.1 (Or.inl (by decide)),
   (query_db_limit_clamped (usersEngine []) [] 500).2.2.2.2 (by decide) (by decide)⟩

/-- C5: `query_db`'s statement rewrite appends a `LIMIT` clause (after
removing trailing semicolons) exactly when the case-insensitive substring
`"limit"` does not occur anywhere in the statement; a statement that merely
mentions a column such as `limit_reached` is left unchanged. -/
theorem rewriteSql_appends_iff (sql : PyStr) (limit : Int) :
    (containsSub (chars "limit") (pyLower sql) = false →
      rewriteSql sql limit =
        rstripSemis sql ++ chars " LIMIT " ++ intToChars limit) ∧
    (containsSub (chars "limit") (pyLower sql) = true →
      rewriteSql sql limit = sql) ∧
    rewriteSql (chars "SELECT limit_reached FROM t") limit =
      chars "SELECT limit_reached FROM t" := by
  refine ⟨fun h => by simp [rewriteSql, h], fun h => by simp [rewriteSql, h], ?_⟩
  have h : containsSub (chars "limit")
      (pyLower (chars "SELECT limit_reached FROM t")) = true := by decide
  simp [rewriteSql, h]

theorem rewriteSql_appends_iff_witness :
    rewriteSql (chars "SELECT * FROM users;") 100 =
      rstripSemis (chars "SELECT * FROM users;") ++ chars " LIMIT " ++ intToChars 100 ∧
    rewriteSql (chars "SELECT limit_reached FROM t") 42 =
      chars "SELECT limit_reached FROM t" :=
  ⟨(rewriteSql_appends_iff (chars "SELECT * FROM users;") 100).1 (by decide),
   (rewriteSql_appends_iff (chars "SELECT limit_reached FROM t") 42).2.2⟩

/-- C7: `echo` is total, returns the text repeated `min(max(repeat, 1), 10)`
times joined by single spaces and truncated to at most 2000 code points;
`echo "hi" 20` gives exactly 10 repetitions and `echo "hi" 0` exactly 1. -/
theorem echo_clamps_and_truncates (text : PyStr) (rep : Int) :
    echo text rep = (List.intercalate (chars " ")
      (List.replicate (min (max rep 1) 10).toNat text)).take 2000 ∧
    (echo text rep).length ≤ 2000 ∧
    echo (chars "hi") 20 = chars "hi hi hi hi hi hi hi hi hi hi" ∧
    echo (chars "hi") 0 = chars "hi" := by
  have hclamp : (if (if rep < 1 then 1 else rep) > 10 then 10
      else (if rep < 1 then 1 else rep)) = min (max rep 1) 10 := by
    split <;> split <;> omega
  have h1 : echo text rep = (List.intercalate (chars " ")
      (List.replicate (min (max rep 1) 10).toNat text)).take 2000 := by
    simp only [echo]
    rw [hclamp]
    split
    · exact (List.take_of_length_le (by omega)).symm
    · rfl
  refine ⟨h1, ?_, by decide, by decide⟩
  rw [h1, List.length_take]
  omega

theorem echo_clamps_and_truncates_witness :
    echo (chars "hi") 20 = chars "hi hi hi hi hi hi hi hi hi hi" ∧
    echo (chars "hi") 0 = chars "hi" :=
  ⟨(echo_clamps_and_truncates [] 0).2.2.1, (echo_clamps_and_truncates [] 0).2.2.2⟩

/-- Unfolding equation for `_safe_path`. -/
theorem safe_path_eq (resolve : PyPath → Option PyPath) (root home : PyPath)
    (path : PyStr) :
    _safe_path resolve root home path =
      match resolve (anchorUnder root (expanduser home (parsePath path))) with
      | none => none
      | some q => if root ∈ pyParents q ∨ q = root then some q else none := rfl

/-- C1: `_safe_path` expands the home shorthand, anchors a relative input
under the root, resolves, and returns exactly the resolved paths that equal
the root or have the root among their ancestors; a resolution failure
(`resolve` returning `none`, the model of a raised exception) and a path
resolving outside the root are both rejected with `None`. -/
theorem safe_path_confines (resolve : PyPath → Option PyPath) (root home : PyPath)
    (path : PyStr) :
    (∀ q, _safe_path resolve root home path = some q →
      resolve (anchorUnder root (expanduser home (parsePath path))) = some q ∧
      (root ∈ pyParents q ∨ q = root)) ∧
    (resolve (anchorUnder root (expanduser home (parsePath path))) = none →
      _safe_path resolve root home path = none) ∧
    (∀ q, resolve (anchorUnder root (expanduser home (parsePath path))) = some q →
      ¬(root ∈ pyParents q ∨ q = root) →
      _safe_path resolve root home path = none) := by
  refine ⟨?_, ?_, ?_⟩
  · intro q hq
    rw [safe_path_eq] at hq
    cases h : resolve (anchorUnder root (expanduser home (parsePath path))) with
    | none => rw [h] at hq; exact Option.noConfusion hq
    | some r =>
      rw [h] at hq
      dsimp only at hq
      by_cases hc : root ∈ pyParents r ∨ r = root
      · rw [if_pos hc] at hq
        injection hq with e
        subst e
        exact ⟨rfl, hc⟩
      · rw [if_neg hc] at hq
        exact Option.noConfusion hq
  · intro h
    rw [safe_path_eq, h]
  · intro q h hc
    rw [safe_path_eq, h]
    dsimp only
    rw [if_neg hc]

theorem safe_path_confines_witness :
    _safe_path (fun p => some p) ⟨true, [chars "w"]⟩ ⟨true, [chars "h"]⟩
      (chars "/etc/passwd") = none ∧
    ((⟨true, [chars "w"]⟩ : PyPath) ∈ pyParents ⟨true, [chars "w", chars "a.txt"]⟩ ∨
      (⟨true, [chars "w", chars "a.txt"]⟩ : PyPath) = ⟨true, [chars "w"]⟩) :=
  ⟨(safe_path_confines (fun p => some p) ⟨true, [chars "w"]⟩ ⟨true, [chars "h"]⟩
      (chars "/etc/passwd")).2.2 ⟨true, [chars "etc", chars "passwd"]⟩ rfl (by decide),
   ((safe_path_confines (fun p => some p) ⟨true, [chars "w"]⟩ ⟨true, [chars "h"]⟩
      (chars "a.txt")).1 ⟨true, [chars "w", chars "a.txt"]⟩ (by decide)).2⟩

/-- C6: `read_file` returns the empty string when the resolver rejects the
path, when the target does not exist, or when it is not a regular file; it
returns the decoded text truncated to `max_bytes` when the read succeeds;
and it returns an `"ERROR: …"` string, not a protocol error, when the read
fails for any other reason. -/
theorem read_file_error_policy (resolve : PyPath → Option PyPath)
    (fs : FileSystem) (root home : PyPath) (path : PyStr) (max_bytes : Int) :
    (_safe_path resolve root home path = none →
      read_file resolve fs root home path max_bytes = []) ∧
    (∀ p, _safe_path resolve root home path = some p →
      (fs.pathExists p = false ∨ fs.isFile p = false) →
      read_file resolve fs root home path max_bytes = []) ∧
    (∀ p text, _safe_path resolve root home path = some p →
      fs.pathExists p = true → fs.isFile p = true → fs.readText p = .ok text →
      read_file resolve fs root home path max_bytes = pySliceTo text max_bytes) ∧
    (∀ p e, _safe_path resolve root home path = some p →
      fs.pathExists p = true → fs.isFile p = true → fs.readText p = .error e →
      read_file resolve fs root home path max_bytes = chars "ERROR: " ++ e) := by
  refine ⟨?_, ?_, ?_, ?_⟩
  · intro h
    unfold read_file
    rw [h]
  · intro p hp hfail
    unfold read_file
    rw [hp]
    dsimp only
    rw [if_pos hfail]
  · intro p text hp hex hfile hread
    unfold read_file
    rw [hp]
    dsimp only
    rw [if_neg (by simp [hex, hfile]), hread]
  · intro p e hp hex hfile hread
    unfold read_file
    rw [hp]
    dsimp only
    rw [if_neg (by simp [hex, hfile]), hread]

theorem read_file_error_policy_witness :
    read_file (fun p => some p)
      ⟨fun _ => true, fun _ => true, fun _ => Except.ok (chars "hello world")⟩
      ⟨true, [chars "w"]⟩ ⟨true, [chars "h"]⟩ (chars "a.txt") 5 =
      pySliceTo (chars "hello world") 5 ∧
    read_file (fun p => some p)
      ⟨fun _ => true, fun _ => true, fun _ => Except.ok (chars "hello world")⟩
      ⟨true, [chars "w"]⟩ ⟨true, [chars "h"]⟩ (chars "/etc/passwd") 5 = [] :=
  ⟨(read_file_error_policy (fun p => some p)
      ⟨fun _ => true, fun _ => true, fun _ => Except.ok (chars "hello world")⟩
      ⟨true, [chars "w"]⟩ ⟨true, [chars "h"]⟩ (chars "a.txt") 5).2.2.1
      ⟨true, [chars "w", chars "a.txt"]⟩ (chars "hello world")
      (by decide) rfl rfl rfl,
   (read_file_error_policy (fun p => some p)
      ⟨fun _ => true, fun _ => true, fun _ => Except.ok (chars "hello world")⟩
      ⟨true, [chars "w"]⟩ ⟨true, [chars "h"]⟩ (chars "/etc/passwd") 5).1 (by decide)⟩

/-- C8: `summarize` is total: with `segments` the period-split, stripped,
non-empty pieces of the text, it returns the empty string when no segment
remains and otherwise the first `max(max_sentences, 1)` segments rejoined
with `". "` plus a trailing period; `summarize "A. B. C. D." 2 = "A. B."`
and `summarize "" 3 = ""`. -/
theorem summarize_spec (text : PyStr) (m : Int) :
    (segments text = [] → summarize text m = []) ∧
    (segments text ≠ [] → summarize text m =
      List.intercalate (chars ". ") ((segments text).take (max m 1).toNat) ++ ['.']) ∧
    summarize (chars "A. B. C. D.") 2 = chars "A. B." ∧
    summarize (chars "") 3 = [] := by
  refine ⟨?_, ?_, by decide, by decide⟩
  · intro h
    simp only [summarize]
    rw [if_pos h]
  · intro h
    have hm : (if m < 1 then 1 else m) = max m 1 := by
      rcases lt_or_le m 1 with hlt | hle
      · rw [if_pos hlt, max_eq_right hlt.le]
      · rw [if_neg (not_lt.mpr hle), max_eq_left hle]
    simp only [summarize]
    rw [if_neg h, hm]
    have hpos : 0 < ((segments text).take (max m 1).toNat).length := by
      rw [List.length_take]
      have h1 : (1 : Int) ≤ max m 1 := le_max_right m 1
      have h2 : 0 < (segments text).length := List.length_pos.mpr h
      omega
    rw [if_pos hpos]

theorem summarize_spec_witness :
    summarize (chars "x. y") 1 = List.intercalate (chars ". ")
      ((segments (chars "x. y")).take (max (1 : Int) 1).toNat) ++ ['.'] ∧
    summarize (chars "   ") 3 = [] :=
  ⟨(summarize_spec (chars "x. y") 1).2.1 (by decide),
   (summarize_spec (chars "   ") 3).1 (by decide)⟩

/-- C9: every successful `query_db` result aligns rows with columns: each
returned row holds exactly as many values as there are column names. -/
theorem query_db_rows_match_columns (engine : PyStr → List Row) (sql : PyStr)
    (limit : Int) (res : QueryResult)
    (h : query_db engine sql limit = .ok res) :
    ∀ row ∈ res.rows, row.length = res.columns.length := by
  simp only [query_db] at h
  by_cases hs : (chars "select").isPrefixOf (pyLower (pyStrip sql)) = false
  · rw [if_pos hs] at h
    exact Except.noConfusion h
  · rw [if_neg hs] at h
    injection h with h
    subst h
    intro row hrow
    simp only [List.mem_map] at hrow
    obtain ⟨r, _, rfl⟩ := hrow
    exact List.length_map _ _

theorem query_db_rows_match_columns_witness :
    ([SqlValue.int 1, SqlValue.text (chars "alice"), SqlValue.int 5] : List SqlValue).length =
      ([chars "id", chars "name", chars "messages"] : List PyStr).length :=
  query_db_rows_match_columns
    (usersEngine (dbTable (_ensure_db none))) (chars "SELECT * FROM users") 100
    ⟨[chars "id", chars "name", chars "messages"],
     [[.int 1, .text (chars "alice"), .int 5],
      [.int 2, .text (chars "bob"), .int 3],
      [.int 3, .text (chars "carol"), .int 12],
      [.int 4, .text (chars "dave"), .int 0]]⟩ rfl
    [SqlValue.int 1, SqlValue.text (chars "alice"), SqlValue.int 5] (by decide)

/-- C10: an accepted SELECT for which the engine returns no rows yields a
result whose column list is empty as well as its row list, because column
names are read off the first returned row. -/
theorem query_db_empty_gives_no_columns (engine : PyStr → List Row)
    (sql : PyStr) (limit : Int)
    (hsel : (chars "select").isPrefixOf (pyLower (pyStrip sql)) = true)
    (hempty : engine (rewriteSql (pyStrip sql) (clampLimit limit)) = []) :
    query_db engine sql limit = .ok ⟨[], []⟩ := by
  simp only [query_db]
  rw [if_neg (by simp [hsel]), hempty]
  rfl

theorem query_db_empty_gives_no_columns_witness :
    query_db (fun _ => []) (chars "SELECT * FROM users WHERE id = 99") 100 =
      .ok ⟨[], []⟩ :=
  query_db_empty_gives_no_columns (fun _ => [])
    (chars "SELECT * FROM users WHERE id = 99") 100 (by decide) rfl

/-- C2 counterexample: the seeded `users` table exposes the column name
`messages`, not `message_count`; `query_db "SELECT * FROM users"` run after
first-time initialization returns the four seed rows under the columns
`[id, name, messages]`. -/
theorem query_db_users_columns_counterexample :
    query_db (usersEngine (dbTable (_ensure_db none)))
      (chars "SELECT * FROM users") 100 =
      .ok ⟨[chars "id", chars "name", chars "messages"],
           [[.int 1, .text (chars "alice"), .int 5],
            [.int 2, .text (chars "bob"), .int 3],
            [.int 3, .text (chars "carol"), .int 12],
            [.int 4, .text (chars "dave"), .int 0]]⟩ ∧
    chars "messages" ≠ chars "message_count" :=
  ⟨rfl, by decide⟩

/-- C2 (amended): `_ensure_db` seeds exactly when the backing store is
absent and never re-seeds an existing store, so from a fresh store or an
already-seeded one, `query_db "SELECT * FROM users"` returns the four seed
rows exactly once, under the columns `[id, name, messages]`. -/
theorem query_db_seed_rows (s : Option (List Row))
    (h : s = none ∨ s = some seedUsers) :
    _ensure_db none = some seedUsers ∧
    (∀ t, _ensure_db (some t) = some t) ∧
    query_db (usersEngine (dbTable (_ensure_db s)))
      (chars "SELECT * FROM users") 100 =
      .ok ⟨[chars "id", chars "name", chars "messages"],
           [[.int 1, .text (chars "alice"), .int 5],
            [.int 2, .text (chars "bob"), .int 3],
            [.int 3, .text (chars "carol"), .int 12],
            [.int 4, .text (chars "dave"), .int 0]]⟩ := by
  rcases h with h | h <;> subst h <;> exact ⟨rfl, fun t => rfl, rfl⟩

theorem query_db_seed_rows_witness :
    query_db (usersEngine (dbTable (_ensure_db (some seedUsers))))
      (chars "SELECT * FROM users") 100 =
      .ok ⟨[chars "id", chars "name", chars "messages"],
           [[.int 1, .text (chars "alice"), .int 5],
            [.int 2, .text (chars "bob"), .int 3],
            [.int 3, .text (chars "carol"), .int 12],
            [.int 4, .text (chars "dave"), .int 0]]⟩ :=
  (query_db_seed_rows (some seedUsers) (Or.inr rfl)).2.2

end MCP
